import Mathlib

/-!
Verification development for the sys-ui repository (src/main.rs).

The source is a Dioxus UI over a tax-lot ledger (the Db of the external
sys crate) and a Solana transaction lifecycle engine.  The definitions
below shallowly embed the code paths the claims are about:

* machine integers (u64, usize) are modelled as Nat; amounts never
  overflow in the claims under consideration,
* f64 arithmetic in the gain/tax summaries is modelled over the exact
  rationals; the claims concern which formula and which branch is
  applied, not float rounding,
* calendar dates (chrono NaiveDate) are modelled as Int day numbers, so
  that signed_duration_since(a, b).num_days() is exactly a - b,
* fallible calls return Except, RPC collaborators are supplied as an
  explicit environment record, and panics (assert!, unwrap, slice
  indexing) are modelled by a dedicated fatal outcome or by Option.

The ledger operations (sys::db) are not part of this repository: only
their call sites are under src/.  Where their behavior decides a claim
they are modelled from the spec, as marked in doc comments.
-/

namespace SysUi

/-- Token identity of a tracked account: native SOL or an SPL token
identified by its mint (MaybeToken in the source). -/
inductive MaybeToken where
  | sol : MaybeToken
  | token (mint : Nat) : MaybeToken
deriving DecidableEq, Repr

/-- Modelled from the spec: the decimal count used to convert between
base units and UI amounts.  SOL has 9 decimal places (lamports); SPL
token mints in this model use the spl-token default of 6.  Only the SOL
case is exercised by the claims. -/
def MaybeToken.decimals : MaybeToken → Nat
  | .sol => 9
  | .token _ => 6

/-- MaybeToken.is_sol from the source. -/
def MaybeToken.is_sol : MaybeToken → Bool
  | .sol => true
  | .token _ => false

/-- MaybeToken.ui_amount: base units to UI amount, scaling down by the
decimal count (f64 in the source, exact rational here). -/
def MaybeToken.ui_amount (t : MaybeToken) (amount : Nat) : ℚ :=
  (amount : ℚ) / (10 : ℚ) ^ t.decimals

/-- MaybeToken.amount: UI amount to base units, scaling up by the
decimal count and truncating (the source casts the f64 product to u64). -/
def MaybeToken.amount (t : MaybeToken) (ui : ℚ) : Nat :=
  (⌊ui * (10 : ℚ) ^ t.decimals⌋).toNat

/-- How a lot was acquired (LotAcquistionKind in the source); the only
distinction the claims need is whether it is an EpochReward income
event. -/
structure Acquisition where
  when : Int
  price : ℚ
  isEpochReward : Bool
deriving DecidableEq, Repr

/-- One tax lot: unique number, base-unit amount, acquisition data. -/
structure Lot where
  lot_number : Nat
  amount : Nat
  acquisition : Acquisition
deriving DecidableEq, Repr

/-- A tracked account: address, token, ordered live lots, last known
on-chain balance. -/
structure TrackedAccount where
  address : Nat
  token : MaybeToken
  lots : List Lot
  last_update_balance : Nat
deriving DecidableEq, Repr

/-- A disposed lot retained for gain reporting: the originating lot,
its token, the disposal price and the disposal date. -/
structure DisposedLot where
  lot : Lot
  token : MaybeToken
  price : ℚ
  when : Int
deriving DecidableEq, Repr

/-- Status of a recorded transfer (spec section 4.1). -/
inductive TransferStatus where
  | pending : TransferStatus
  | confirmed (when : Int) : TransferStatus
  | cancelled : TransferStatus
deriving DecidableEq, Repr

/-- Modelled from the spec: a pending transfer record keyed by the
transaction signature.  It stores the consumed lots and the exact
pre-debit lots and balance of the source account so that
cancel_transfer can reverse the provisional debit verbatim
(spec section 4.1). -/
structure PendingTransfer where
  signature : Nat
  ceiling : Nat
  amount : Nat
  from_address : Nat
  to_address : Nat
  consumedLots : List Lot
  prevLots : List Lot
  prevBalance : Nat
  status : TransferStatus
deriving DecidableEq, Repr

/-- Lot selection policy (LotSelectionMethod in the source); the spec
names first-in-first-out (the default), last-in-first-out and
highest-cost-first. -/
inductive LotSelectionMethod where
  | firstInFirstOut : LotSelectionMethod
  | lastInFirstOut : LotSelectionMethod
  | highestCostFirst : LotSelectionMethod
deriving DecidableEq, Repr

/-- Default selection policy (LotSelectionMethod::default()). -/
def LotSelectionMethod.default : LotSelectionMethod := .firstInFirstOut

/-- Modelled from the spec: the durable lot ledger (Db of the sys
crate).  It owns the tracked accounts, the transfer records keyed by
signature, the disposed-lot history and the monotone lot-number
supply. -/
structure Db where
  accounts : List TrackedAccount
  transfers : List PendingTransfer
  disposed : List DisposedLot
  next_lot : Nat
deriving DecidableEq, Repr

/-- Db.get_account: first tracked account with the given address and
token. -/
def Db.get_account (db : Db) (address : Nat) (token : MaybeToken) :
    Option TrackedAccount :=
  db.accounts.find? (fun a => a.address == address && a.token == token)

/-- Db.get_accounts: all tracked accounts. -/
def Db.get_accounts (db : Db) : List TrackedAccount := db.accounts

/-- Db.update_account: full replacement of the account with the same
address and token (spec section 4.1). -/
def Db.update_account (db : Db) (account : TrackedAccount) : Db :=
  { db with
    accounts := db.accounts.map fun a =>
      if a.address == account.address && a.token == account.token then
        account
      else a }

/-- get_account_balance: fetches the lamport balance of an address from
the network; the RPC result is supplied by the caller as an Except. -/
def get_account_balance (fetch : Except Unit Nat) : Except Unit Nat :=
  fetch

/-- adjust_balance from the source (src/main.rs lines 2269 to 2285):
find the tracked SOL account at the address; default a failed balance
fetch to 0 (unwrap_or_default); if the network balance is positive and
below the recorded balance, and the shortfall is below the amount of
the first live lot, absorb the shortfall into that lot and set the
recorded balance to the network balance.  Reading lots[0] of an account
with no lots panics in Rust; the model returns none for that case. -/
def adjust_balance (db : Db) (address : Nat) (fetch : Except Unit Nat) :
    Option Db :=
  match db.get_accounts.find? (fun x => x.token.is_sol && x.address == address) with
  | none => some db
  | some account =>
    let network_balance := (get_account_balance fetch).toOption.getD 0
    if network_balance > 0 ∧ network_balance < account.last_update_balance then
      let fee := account.last_update_balance - network_balance
      match account.lots with
      | [] => none
      | l0 :: rest =>
        if fee < l0.amount then
          some (db.update_account
            { account with
              last_update_balance := network_balance
              lots := { l0 with amount := l0.amount - fee } :: rest })
        else some db
    else some db

/-- Acquisition record used by the concrete examples below. -/
def exAcq : Acquisition := { when := 0, price := 10, isEpochReward := false }

/-- Account at address 1 with recorded balance 1000 and a single live
lot of amount 500 (spec example for adjust_balance). -/
def exAcctC3 : TrackedAccount :=
  { address := 1, token := .sol
    lots := [{ lot_number := 1, amount := 500, acquisition := exAcq }]
    last_update_balance := 1000 }

/-- Account at address 1 with recorded balance 1000 and a single live
lot of amount 3 (second spec example). -/
def exAcctC3b : TrackedAccount :=
  { address := 1, token := .sol
    lots := [{ lot_number := 1, amount := 3, acquisition := exAcq }]
    last_update_balance := 1000 }

/-- Ledger holding only exAcctC3. -/
def exDbC3 : Db :=
  { accounts := [exAcctC3], transfers := [], disposed := [], next_lot := 2 }

/-- Ledger holding only exAcctC3b. -/
def exDbC3b : Db :=
  { accounts := [exAcctC3b], transfers := [], disposed := [], next_lot := 2 }

/-- Holding-period classification from DisposedLotItem (src/main.rs
lines 1175 to 1184): the letter S when the disposal date minus the
acquisition date is under 365 days, otherwise L. -/
def disposedLotTerm (lot : DisposedLot) : String :=
  if lot.when - lot.lot.acquisition.when < 365 then "S" else "L"

/-- Accumulator of DisposedSummary aggregation: SOL base-unit amount,
disposal value, income, short-term gain, long-term gain. -/
structure Agg where
  amount : Nat
  value : ℚ
  income : ℚ
  short_gain : ℚ
  long_gain : ℚ
deriving DecidableEq, Repr

/-- aggregate from DisposedSummary (src/main.rs lines 1290 to 1331):
fold over the disposed lots passing the predicate, accumulating the SOL
base-unit amount, the disposal value, the income of EpochReward
acquisitions, and the gain split into short and long term at the
365-day boundary. -/
def aggregate (lots : List DisposedLot) (p : Nat → Bool) : Agg :=
  (lots.filter (fun x => p x.lot.lot_number)).foldl
    (fun acc x =>
      let amount := x.token.ui_amount x.lot.amount
      let basis := amount * x.lot.acquisition.price
      let value := amount * x.price
      { amount := if x.token.is_sol then acc.amount + x.lot.amount else acc.amount
        value := acc.value + amount * x.price
        income := if x.lot.acquisition.isEpochReward then
            acc.income + amount * x.lot.acquisition.price
          else acc.income
        short_gain := if x.when - x.lot.acquisition.when < (365 : Int) then
            acc.short_gain + value - basis
          else acc.short_gain
        long_gain := if x.when - x.lot.acquisition.when < (365 : Int) then
            acc.long_gain
          else acc.long_gain + value - basis })
    { amount := 0, value := 0, income := 0, short_gain := 0, long_gain := 0 }

/-- Disposed lot acquired 364 days before disposal. -/
def exDisposed364 : DisposedLot :=
  { lot := { lot_number := 1, amount := 1000000000, acquisition := exAcq }
    token := .sol, price := 15, when := 364 }

/-- Disposed lot acquired exactly 365 days before disposal. -/
def exDisposed365 : DisposedLot :=
  { lot := { lot_number := 2, amount := 1000000000, acquisition := exAcq }
    token := .sol, price := 15, when := 365 }

/-- Stored tax-rate configuration (sys db TaxRate). -/
structure TaxRate where
  long_term_gain : ℚ
  short_term_gain : ℚ
deriving DecidableEq, Repr

/-- Tax-rate pair of the Summary component (src/main.rs lines 930 to
935): the stored configuration when present, else the fixed defaults
0.22 long term and 0.3935 short term. -/
def taxRates (cfg : Option TaxRate) : ℚ × ℚ :=
  match cfg with
  | some rate => (rate.long_term_gain, rate.short_term_gain)
  | none => (22 / 100, 3935 / 10000)

/-- Short and long gain over the selected lots from the Summary
component (src/main.rs lines 981 to 994): per selected lot, value minus
basis at the current price, bucketed at the 365-day boundary against
today. -/
def summaryGains (account : TrackedAccount) (selected : List Nat)
    (selected_price : ℚ) (today : Int) : ℚ × ℚ :=
  (account.lots.filter (fun x => selected.contains x.lot_number)).foldl
    (fun acc x =>
      let amount := account.token.ui_amount x.amount
      let basis := amount * x.acquisition.price
      let value := amount * selected_price
      if today - x.acquisition.when < 365 then (acc.1 + value - basis, acc.2)
      else (acc.1, acc.2 + value - basis))
    (0, 0)

/-- Tax of the Summary component (src/main.rs lines 1004 to 1016):
computed only when the total gain is positive; a blended rate when both
buckets are positive, the long rate when only the long bucket is
positive, otherwise the short rate. -/
def summaryTax (cfg : Option TaxRate) (short_gain long_gain : ℚ) : Option ℚ :=
  let long_term_gain_tax_rate := (taxRates cfg).1
  let short_term_gain_tax_rate := (taxRates cfg).2
  let gain := short_gain + long_gain
  if gain > 0 then
    some (if short_gain > 0 ∧ long_gain > 0 then
        short_gain * short_term_gain_tax_rate + long_gain * long_term_gain_tax_rate
      else if long_gain > 0 then
        (short_gain + long_gain) * long_term_gain_tax_rate
      else (short_gain + long_gain) * short_term_gain_tax_rate)
  else none

/-- Account with one short-term and one long-term lot for the tax
witness: both buckets contribute a positive gain at price 30 on day
400. -/
def exAcctC7 : TrackedAccount :=
  { address := 5, token := .sol
    lots := [{ lot_number := 1, amount := 1000000000
               acquisition := { when := 100, price := 10, isEpochReward := false } },
             { lot_number := 2, amount := 2000000000
               acquisition := { when := -100, price := 20, isEpochReward := false } }]
    last_update_balance := 3000000000 }

/-- Sum of the live amounts of the selected lots, as folded in
do_withdraw and do_split (src/main.rs lines 1549 to 1554 and 1421 to
1425). -/
def selectedLotsSum (account : TrackedAccount) (selected : List Nat) : Nat :=
  (account.lots.filter (fun x => selected.contains x.lot_number)).foldl
    (fun acc x => acc + x.amount) 0

/-- Amount used by do_withdraw (src/main.rs lines 1546 to 1554): a
positive UI amount field overrides the selected-lot sum and is
converted to base units; otherwise the sum of the selected lots. -/
def doWithdrawAmount (account : TrackedAccount) (selected : List Nat)
    (amountField : Option ℚ) : Nat :=
  if amountField.getD 0 > 0 then account.token.amount (amountField.getD 0)
  else selectedLotsSum account selected

/-- Amount used by do_split (src/main.rs lines 1421 to 1425): always
the sum of the selected lots. -/
def doSplitAmount (account : TrackedAccount) (selected : List Nat) : Nat :=
  selectedLotsSum account selected

/-- Account with a single lot of 100 base units for the C4
counterexample. -/
def exAcctC4 : TrackedAccount :=
  { address := 3, token := .sol
    lots := [{ lot_number := 1, amount := 100, acquisition := exAcq }]
    last_update_balance := 100 }

/-- Sum of the live amounts of a list of lots. -/
def lotsSum (lots : List Lot) : Nat := (lots.map Lot.amount).sum

/-- Modelled from the spec (section 4.2): the deterministic ordering of
candidate lots before greedy consumption.  First-in-first-out keeps the
stored chronological order, last-in-first-out reverses it, and
highest-cost-first sorts by acquisition price, highest first. -/
def orderLots (method : LotSelectionMethod) (lots : List Lot) : List Lot :=
  match method with
  | .firstInFirstOut => lots
  | .lastInFirstOut => lots.reverse
  | .highestCostFirst =>
    lots.insertionSort (fun a b => b.acquisition.price ≤ a.acquisition.price)

/-- Modelled from the spec (section 4.2): greedy consumption of ordered
lots until the target amount is met.  Returns the consumed lots, the
remaining live lots and the next fresh lot number; when the last lot
needed would overshoot it is split into a consumed portion and a
residual lot that keeps the acquisition metadata under a new lot
number; returns none when the live total is below the target. -/
def consumeLots (next : Nat) (lots : List Lot) (target : Nat) :
    Option (List Lot × List Lot × Nat) :=
  if target = 0 then some ([], lots, next)
  else
    match lots with
    | [] => none
    | l :: rest =>
      if l.amount ≤ target then
        match consumeLots next rest (target - l.amount) with
        | none => none
        | some (consumed, remaining, next2) => some (l :: consumed, remaining, next2)
      else
        some ([{ l with amount := target }],
          { l with lot_number := next, amount := l.amount - target } :: rest,
          next + 1)

/-- Modelled from the spec (section 4.1): record_transfer resolves the
lots to debit (the lots named by an explicit lot-number set, whose
amounts also fix the transfer amount per section 4.2, or greedy
selection for the requested amount), provisionally debits them from the
source account, and inserts a Pending record keyed by the signature.
It fails when the signature is already recorded, the source account is
unknown, or selection cannot cover the amount.  Crediting of the
destination account is not modelled: no claim depends on it. -/
def Db.record_transfer (db : Db) (signature : Nat)
    (last_valid_block_height : Nat) (amount : Option Nat)
    (from_address : Nat) (from_token : MaybeToken)
    (to_address : Nat) (to_token : MaybeToken)
    (lot_selection_method : LotSelectionMethod)
    (lot_numbers : Option (List Nat)) : Except String Db :=
  if db.transfers.any (fun t => t.signature == signature) then
    .error "signature already recorded"
  else
    match db.get_account from_address from_token with
    | none => .error "unknown source account"
    | some account =>
      let finish : List Lot → List Lot → Nat → Nat → Except String Db :=
        fun consumed remaining amt next2 =>
        let account2 := { account with
          lots := remaining
          last_update_balance := account.last_update_balance - amt }
        .ok { (db.update_account account2) with
            transfers := { signature := signature
                           ceiling := last_valid_block_height
                           amount := amt
                           from_address := from_address
                           to_address := to_address
                           consumedLots := consumed
                           prevLots := account.lots
                           prevBalance := account.last_update_balance
                           status := .pending } :: db.transfers
            next_lot := next2 }
      match lot_numbers with
      | some ns =>
        let consumed := account.lots.filter (fun l => ns.contains l.lot_number)
        let remaining := account.lots.filter (fun l => !(ns.contains l.lot_number))
        finish consumed remaining (lotsSum consumed) db.next_lot
      | none =>
        let amt := amount.getD account.last_update_balance
        match consumeLots db.next_lot
            (orderLots lot_selection_method account.lots) amt with
        | none => .error "insufficient lots"
        | some (consumed, remaining, next2) => finish consumed remaining amt next2

/-- Modelled from the spec (section 4.1): cancel_transfer transitions a
Pending record to Cancelled and restores the source account to its
exact pre-debit lots and balance; it fails on an unknown signature or
one already finalized. -/
def Db.cancel_transfer (db : Db) (signature : Nat) : Except String Db :=
  match db.transfers.find? (fun t => t.signature == signature) with
  | none => .error "unknown signature"
  | some t =>
    match t.status with
    | .pending =>
      let db2 := match db.get_account t.from_address .sol with
        | none => db
        | some account => db.update_account
            { account with lots := t.prevLots, last_update_balance := t.prevBalance }
      .ok { db2 with
        transfers := db2.transfers.map fun u =>
          if u.signature == signature then { u with status := .cancelled } else u }
    | _ => .error "transfer already finalized"

/-- Modelled from the spec (section 4.1): confirm_transfer transitions
a Pending record to Confirmed with the settlement date, finalizing the
debit; it fails on an unknown signature or one already finalized.
DisposedLot creation applies only to genuine disposals; a stake
withdrawal between two tracked SOL accounts is an internal move, so no
claim depends on it and it is not modelled here. -/
def Db.confirm_transfer (db : Db) (signature : Nat) (when : Int) :
    Except String Db :=
  match db.transfers.find? (fun t => t.signature == signature) with
  | none => .error "unknown signature"
  | some t =>
    match t.status with
    | .pending =>
      .ok { db with
        transfers := db.transfers.map fun u =>
          if u.signature == signature then { u with status := .confirmed when } else u }
    | _ => .error "transfer already finalized"

/-- Modelled from the spec (section 4.1): remove_account deletes an
account and fails if it is unknown or live lots remain unaccounted. -/
def Db.remove_account (db : Db) (address : Nat) (token : MaybeToken) :
    Except String Db :=
  match db.get_account address token with
  | none => .error "unknown account"
  | some account =>
    if account.lots.isEmpty then
      .ok { db with
        accounts := db.accounts.filter
          (fun a => !(a.address == address && a.token == token)) }
    else .error "live lots remain"

/-- Modelled from the spec (section 4.1): record_drop is a direct
disposal with no on-chain transaction and no Pending phase; it applies
lot selection and immediately moves the consumed lots to the
disposed-lot history.  The disposal price and date are resolved
internally by the sys db and not modelled (no claim depends on them). -/
def Db.record_drop (db : Db) (address : Nat) (token : MaybeToken)
    (amount : Nat) (lot_selection_method : LotSelectionMethod)
    (lot_numbers : Option (List Nat)) : Except String Db :=
  match db.get_account address token with
  | none => .error "unknown account"
  | some account =>
    let finish : List Lot → List Lot → Nat → Nat → Except String Db :=
      fun consumed remaining amt next2 =>
      let account2 := { account with
        lots := remaining
        last_update_balance := account.last_update_balance - amt }
      .ok { (db.update_account account2) with
          disposed := db.disposed ++ consumed.map
            (fun l => { lot := l, token := token, price := 0, when := 0 })
          next_lot := next2 }
    match lot_numbers with
    | some ns =>
      let consumed := account.lots.filter (fun l => ns.contains l.lot_number)
      let remaining := account.lots.filter (fun l => !(ns.contains l.lot_number))
      finish consumed remaining (lotsSum consumed) db.next_lot
    | none =>
      match consumeLots db.next_lot
          (orderLots lot_selection_method account.lots) amount with
      | none => .error "insufficient lots"
      | some (consumed, remaining, next2) => finish consumed remaining amount next2

/-- Observable engine actions recorded while an operation runs.  A
ledger event is recorded when the corresponding Db operation is
invoked, whether or not it succeeds. -/
inductive Event where
  | built : Event
  | simulated : Event
  | signed : Event
  | recordTransfer (signature : Nat) : Event
  | sent (signature : Nat) : Event
  | cancelTransfer (signature : Nat) : Event
  | confirmTransfer (signature : Nat) : Event
  | removeAccount (address : Nat) : Event
  | recordDrop (address : Nat) (lot_numbers : List Nat) : Event
  | adjustBalance (address : Nat) : Event
deriving DecidableEq, Repr

/-- Result of one engine operation: success, a propagated error, or a
Rust panic (failed assert! or unwrap). -/
inductive Outcome where
  | ok : Outcome
  | error : Outcome
  | fatal : Outcome
deriving DecidableEq, Repr

/-- Responses of the network collaborators for one run:
get_latest_blockhash_with_commitment, simulate_transaction (ok none
means no execution error, ok some an execution error, error an RPC
failure), try_sign, the transaction signature, the result of
send_transaction_until_expired, and get_signature_date. -/
structure WithdrawEnv where
  blockhash : Except Unit (Nat × Nat)
  simulate : Except Unit (Option Nat)
  signOk : Bool
  signature : Nat
  sendResult : Except Unit Bool
  sigDate : Except Unit Int
deriving Repr

/-- process_stake_withdraw from the source (src/main.rs lines 1946 to
2016): fetch the blockhash, require both the source stake account and
the destination to be tracked SOL accounts, resolve the amount (None
means withdraw all of last_update_balance), build and simulate the
transaction (an execution error aborts), sign, record a Pending
transfer, submit until the blockhash expires (failure cancels the
transfer and errors), confirm with the settlement date, and for a
withdraw-all run assert the account has no live lots (assert! panics
otherwise) and remove it. -/
def processStakeWithdraw (db : Db) (env : WithdrawEnv)
    (stake_address to_address : Nat) (amount : Option Nat)
    (lot_selection_method : LotSelectionMethod)
    (lot_numbers : Option (List Nat)) : Outcome × Db × List Event :=
  match env.blockhash with
  | .error _ => (.error, db, [])
  | .ok (_, last_valid_block_height) =>
    match db.get_account stake_address .sol with
    | none => (.error, db, [])
    | some stake_account =>
      if (db.get_account to_address .sol).isNone then (.error, db, [])
      else
        let withdraw_all := amount.isNone
        let amt := match amount with
          | none => stake_account.last_update_balance
          | some a => a
        match env.simulate with
        | .error _ => (.error, db, [.built])
        | .ok (some _) => (.error, db, [.built, .simulated])
        | .ok none =>
          if !env.signOk then (.error, db, [.built, .simulated])
          else
            let sig := env.signature
            match db.record_transfer sig last_valid_block_height (some amt)
                stake_address .sol to_address .sol lot_selection_method
                lot_numbers with
            | .error _ =>
              (.error, db, [.built, .simulated, .signed, .recordTransfer sig])
            | .ok db1 =>
              let tr := [Event.built, .simulated, .signed, .recordTransfer sig,
                .sent sig]
              if !(env.sendResult.toOption.getD false) then
                match db1.cancel_transfer sig with
                | .error _ => (.error, db1, tr ++ [.cancelTransfer sig])
                | .ok db2 => (.error, db2, tr ++ [.cancelTransfer sig])
              else
                match env.sigDate with
                | .error _ => (.error, db1, tr)
                | .ok when =>
                  match db1.confirm_transfer sig when with
                  | .error _ => (.error, db1, tr ++ [.confirmTransfer sig])
                  | .ok db2 =>
                    let tr2 := tr ++ [Event.confirmTransfer sig]
                    if withdraw_all then
                      match db2.get_account stake_address .sol with
                      | none => (.fatal, db2, tr2)
                      | some acct =>
                        if acct.lots.isEmpty then
                          match db2.remove_account stake_address .sol with
                          | .error _ =>
                            (.error, db2, tr2 ++ [.removeAccount stake_address])
                          | .ok db3 =>
                            (.ok, db3, tr2 ++ [.removeAccount stake_address])
                        else (.fatal, db2, tr2)
                    else (.ok, db2, tr2)

/-- process_stake_deactivate from the source (src/main.rs lines 1911 to
1943): fetch the blockhash, build and simulate the deactivate
instruction (an execution error aborts), sign and submit; the ledger is
never touched on this path. -/
def processStakeDeactivate (env : WithdrawEnv) : Outcome × List Event :=
  match env.blockhash with
  | .error _ => (.error, [])
  | .ok _ =>
    match env.simulate with
    | .error _ => (.error, [.built])
    | .ok (some _) => (.error, [.built, .simulated])
    | .ok none =>
      if !env.signOk then (.error, [.built, .simulated])
      else
        if env.sendResult.toOption.getD false then
          (.ok, [.built, .simulated, .signed, .sent env.signature])
        else (.error, [.built, .simulated, .signed, .sent env.signature])

/-- Collaborator responses for the non-SOL token withdrawal path: the
result of process_token_transfer and the balance fetch made inside
adjust_balance. -/
structure TokenTransferEnv where
  transferResult : Except Unit Unit
  adjustFetch : Except Unit Nat
deriving Repr

/-- Non-SOL branch of do_withdraw (src/main.rs lines 1573 to 1607): on
a token-transfer failure it logs and returns with no ledger call; on
success it reconciles the authority balance (adjust_balance) and then
debits the ledger immediately through record_drop with the explicitly
selected lot numbers; there is no Pending transfer on this path.  A
record_drop failure is only logged.  The none result propagates a
panic inside adjust_balance. -/
def doWithdrawTokenPath (db : Db) (account : TrackedAccount)
    (authority_address : Nat) (amount : Nat) (lot_numbers : List Nat)
    (env : TokenTransferEnv) : Option (Db × List Event) :=
  match env.transferResult with
  | .error _ => some (db, [])
  | .ok _ =>
    match adjust_balance db authority_address env.adjustFetch with
    | none => none
    | some db1 =>
      let tr := [Event.adjustBalance authority_address,
        .recordDrop account.address lot_numbers]
      match db1.record_drop account.address account.token amount
          .lastInFirstOut (some lot_numbers) with
      | .error _ => some (db1, tr)
      | .ok db2 => some (db2, tr)

/-- Ledger with a tracked SOL account at address 1 only; address 2 is
untracked. -/
def exEnvOk : WithdrawEnv :=
  { blockhash := .ok (0, 10), simulate := .ok none, signOk := true
    signature := 7, sendResult := .ok true, sigDate := .ok 100 }

/-- Tracked destination SOL account for the lifecycle examples. -/
def exAcctTo : TrackedAccount :=
  { address := 2, token := .sol, lots := [], last_update_balance := 0 }

/-- Ledger with the source account of exAcctC3 and a tracked
destination. -/
def exDbC1 : Db :=
  { accounts := [exAcctC3, exAcctTo], transfers := [], disposed := []
    next_lot := 2 }

/-- Environment whose submission reports failure. -/
def exEnvSendFail : WithdrawEnv := { exEnvOk with sendResult := .ok false }

/-- C5 counterexample inputs: source account with two live lots summing
to the recorded balance. -/
def exAcctC5 : TrackedAccount :=
  { address := 1, token := .sol
    lots := [{ lot_number := 1, amount := 60, acquisition := exAcq },
             { lot_number := 2, amount := 40, acquisition := exAcq }]
    last_update_balance := 100 }

/-- Ledger for the C5 counterexample and witness. -/
def exDbC5 : Db :=
  { accounts := [exAcctC5, exAcctTo], transfers := [], disposed := []
    next_lot := 3 }

/-- Non-SOL token account for the C8 witness. -/
def exAcctC8 : TrackedAccount :=
  { address := 9, token := .token 5
    lots := [{ lot_number := 1, amount := 100, acquisition := exAcq }]
    last_update_balance := 100 }

/-- Ledger for the C8 witness: the token account plus the SOL authority
account. -/
def exDbC8 : Db :=
  { accounts := [exAcctC8, exAcctC3], transfers := [], disposed := []
    next_lot := 2 }

/-- C3: adjust_balance on the tracked SOL account at the given address:
with a fetched network balance that is positive and below the recorded
balance and a shortfall strictly below the first live lot amount, the
first lot is reduced by exactly the shortfall and the recorded balance
becomes the network balance; when the shortfall reaches the first lot
amount, or the network balance is not positive and below the recorded
balance, the ledger is unchanged. -/
theorem adjust_balance_spec (db : Db) (address : Nat) (nb : Nat)
    (account : TrackedAccount) (l0 : Lot) (rest : List Lot)
    (hfind : db.get_accounts.find?
      (fun x => x.token.is_sol && x.address == address) = some account)
    (hlots : account.lots = l0 :: rest) :
    (nb > 0 → nb < account.last_update_balance →
      account.last_update_balance - nb < l0.amount →
      adjust_balance db address (.ok nb) =
        some (db.update_account
          { account with
            last_update_balance := nb
            lots := { l0 with
              amount := l0.amount - (account.last_update_balance - nb) } :: rest })) ∧
    (nb > 0 → nb < account.last_update_balance →
      l0.amount ≤ account.last_update_balance - nb →
      adjust_balance db address (.ok nb) = some db) ∧
    (¬ (nb > 0 ∧ nb < account.last_update_balance) →
      adjust_balance db address (.ok nb) = some db) := by
  refine ⟨?_, ?_, ?_⟩
  · intro h1 h2 h3
    simp only [adjust_balance, hfind, get_account_balance, Except.toOption,
      Option.getD_some, hlots]
    rw [if_pos ⟨h1, h2⟩, if_pos h3]
  · intro h1 h2 h3
    simp only [adjust_balance, hfind, get_account_balance, Except.toOption,
      Option.getD_some, hlots]
    rw [if_pos ⟨h1, h2⟩, if_neg (by omega)]
  · intro h
    simp only [adjust_balance, hfind, get_account_balance, Except.toOption,
      Option.getD_some, hlots]
    rw [if_neg h]

/-- Witness for C3 at the concrete inputs of the spec examples: ledger
balance 1000, network balance 995, first lot 500 gives first lot 495
and balance 995; first lot 3 gives no change. -/
theorem adjust_balance_spec_witness :
    adjust_balance exDbC3 1 (.ok 995) =
      some (exDbC3.update_account
        { exAcctC3 with
          last_update_balance := 995
          lots := [{ lot_number := 1
                     amount := 500 - (exAcctC3.last_update_balance - 995)
                     acquisition := exAcq }] }) ∧
    adjust_balance exDbC3b 1 (.ok 995) = some exDbC3b := by
  constructor
  · exact (adjust_balance_spec exDbC3 1 995 exAcctC3
      { lot_number := 1, amount := 500, acquisition := exAcq } []
      rfl rfl).1 (by decide) (by decide) (by decide)
  · exact (adjust_balance_spec exDbC3b 1 995 exAcctC3b
      { lot_number := 1, amount := 3, acquisition := exAcq } []
      rfl rfl).2.1 (by decide) (by decide) (by decide)

/-- C9: adjust_balance leaves the ledger unchanged whenever the balance
fetch fails (the error defaults the balance to 0) or fetches zero, and
any run that changes the ledger saw a strictly positive fetched
balance. -/
theorem adjust_balance_zero_fetch (db : Db) (address : Nat)
    (fetch : Except Unit Nat) :
    ((fetch = .error () ∨ fetch = .ok 0) →
      adjust_balance db address fetch = some db) ∧
    (adjust_balance db address fetch ≠ some db →
      0 < (get_account_balance fetch).toOption.getD 0) := by
  have key : ∀ f : Except Unit Nat, (get_account_balance f).toOption.getD 0 = 0 →
      adjust_balance db address f = some db := by
    intro f hf
    cases hfind : db.get_accounts.find?
        (fun x => x.token.is_sol && x.address == address) with
    | none => simp [adjust_balance, hfind]
    | some account => simp [adjust_balance, hfind, hf]
  constructor
  · rintro (rfl | rfl)
    · exact key _ rfl
    · exact key _ rfl
  · intro h
    rcases Nat.eq_zero_or_pos ((get_account_balance fetch).toOption.getD 0) with h0 | h0
    · exact absurd (key _ h0) h
    · exact h0

/-- Witness for C9: a failed fetch and a zero fetch leave the concrete
ledger untouched. -/
theorem adjust_balance_zero_fetch_witness :
    adjust_balance exDbC3 1 (.error ()) = some exDbC3 ∧
    adjust_balance exDbC3 1 (.ok 0) = some exDbC3 :=
  ⟨(adjust_balance_zero_fetch exDbC3 1 (.error ())).1 (Or.inl rfl),
   (adjust_balance_zero_fetch exDbC3 1 (.ok 0)).1 (Or.inr rfl)⟩

/-- C6: every lot, live or disposed, classifies as short term exactly
when the day difference from acquisition to disposal (or to the
current date for a live lot) is strictly below 365 and as long term
exactly when it is at least 365; the boundary cases 364 and 365
classify short and long; the aggregated gain of a disposed lot lands
entirely in the matching bucket, and a selected live lot in the
holdings summary is bucketed by the same strictly-below-365 rule
against the current date. -/
theorem holding_period_classification (d : DisposedLot) :
    (disposedLotTerm d = "S" ↔ d.when - d.lot.acquisition.when < 365) ∧
    (disposedLotTerm d = "L" ↔ 365 ≤ d.when - d.lot.acquisition.when) ∧
    (d.when - d.lot.acquisition.when = 364 → disposedLotTerm d = "S") ∧
    (d.when - d.lot.acquisition.when = 365 → disposedLotTerm d = "L") ∧
    (d.when - d.lot.acquisition.when < 365 →
      (aggregate [d] (fun _ => true)).short_gain =
        d.token.ui_amount d.lot.amount * d.price -
          d.token.ui_amount d.lot.amount * d.lot.acquisition.price ∧
      (aggregate [d] (fun _ => true)).long_gain = 0) ∧
    (365 ≤ d.when - d.lot.acquisition.when →
      (aggregate [d] (fun _ => true)).short_gain = 0 ∧
      (aggregate [d] (fun _ => true)).long_gain =
        d.token.ui_amount d.lot.amount * d.price -
          d.token.ui_amount d.lot.amount * d.lot.acquisition.price) ∧
    (∀ (account : TrackedAccount) (x : Lot) (price : ℚ) (today : Int),
      account.lots = [x] →
      (today - x.acquisition.when < 365 →
        summaryGains account [x.lot_number] price today =
          (account.token.ui_amount x.amount * price -
            account.token.ui_amount x.amount * x.acquisition.price, 0)) ∧
      (365 ≤ today - x.acquisition.when →
        summaryGains account [x.lot_number] price today =
          (0, account.token.ui_amount x.amount * price -
            account.token.ui_amount x.amount * x.acquisition.price))) := by
  have hlive : ∀ (account : TrackedAccount) (x : Lot) (price : ℚ) (today : Int),
      account.lots = [x] →
      (today - x.acquisition.when < 365 →
        summaryGains account [x.lot_number] price today =
          (account.token.ui_amount x.amount * price -
            account.token.ui_amount x.amount * x.acquisition.price, 0)) ∧
      (365 ≤ today - x.acquisition.when →
        summaryGains account [x.lot_number] price today =
          (0, account.token.ui_amount x.amount * price -
            account.token.ui_amount x.amount * x.acquisition.price)) := by
    intro account x price today hlots
    constructor
    · intro hlt
      simp [summaryGains, hlots, hlt]
    · intro hge
      simp [summaryGains, hlots,
        (by omega : ¬ (today - x.acquisition.when < 365))]
      exact fun hlt => absurd hlt (by omega)
  by_cases h : d.when - d.lot.acquisition.when < 365
  case pos =>
    have hterm : disposedLotTerm d = "S" := by simp [disposedLotTerm, h]
    refine ⟨⟨fun _ => h, fun _ => hterm⟩, ⟨fun hl => ?_, fun hle => by omega⟩,
      fun _ => hterm, fun h365 => by omega, fun _ => ⟨?_, ?_⟩,
      fun h365 => by omega, hlive⟩
    · rw [hterm] at hl
      exact absurd hl (by decide)
    · simp [aggregate, h]
    · simp [aggregate, h]
  case neg =>
    have hterm : disposedLotTerm d = "L" := by simp [disposedLotTerm, h]
    refine ⟨⟨fun hs => ?_, fun hlt => by omega⟩, ⟨fun _ => by omega, fun _ => hterm⟩,
      fun h364 => by omega, fun _ => hterm, fun hlt => by omega,
      fun _ => ⟨?_, ?_⟩, hlive⟩
    · rw [hterm] at hs
      exact absurd hs (by decide)
    · simp [aggregate, h]
    · simp [aggregate, h]

/-- Witness for C6 at the spec boundary: a disposed lot held 364 days
classifies short term and one held exactly 365 days long term, and the
holdings summary buckets a live lot the same way at 364 and 365 days
from acquisition. -/
theorem holding_period_classification_witness :
    disposedLotTerm exDisposed364 = "S" ∧ disposedLotTerm exDisposed365 = "L" ∧
    summaryGains exAcctC4 [1] 15 364 =
      (exAcctC4.token.ui_amount 100 * 15 - exAcctC4.token.ui_amount 100 * 10,
        0) ∧
    summaryGains exAcctC4 [1] 15 365 =
      (0,
        exAcctC4.token.ui_amount 100 * 15 - exAcctC4.token.ui_amount 100 * 10) :=
  ⟨(holding_period_classification exDisposed364).2.2.1 (by decide),
   (holding_period_classification exDisposed365).2.2.2.1 (by decide),
   ((holding_period_classification exDisposed364).2.2.2.2.2.2 exAcctC4
     { lot_number := 1, amount := 100, acquisition := exAcq } 15 364 rfl).1
     (by decide),
   ((holding_period_classification exDisposed365).2.2.2.2.2.2 exAcctC4
     { lot_number := 1, amount := 100, acquisition := exAcq } 15 365 rfl).2
     (by decide)⟩

/-- C7: over the gains of the selected lots, when the total gain is
positive the tax is short times short rate plus long times long rate if
both buckets are positive, total times long rate if only the long
bucket is positive, and total times short rate otherwise; no tax is
computed when the gain is not positive; the rates come from the stored
configuration and default to 0.22 long term and 0.3935 short term. -/
theorem summary_tax_spec (account : TrackedAccount) (selected : List Nat)
    (price : ℚ) (today : Int) (cfg : Option TaxRate) :
    let s := (summaryGains account selected price today).1
    let l := (summaryGains account selected price today).2
    (0 < s → 0 < l →
      summaryTax cfg s l = some (s * (taxRates cfg).2 + l * (taxRates cfg).1)) ∧
    (0 < l → s ≤ 0 → 0 < s + l →
      summaryTax cfg s l = some ((s + l) * (taxRates cfg).1)) ∧
    (l ≤ 0 → 0 < s + l →
      summaryTax cfg s l = some ((s + l) * (taxRates cfg).2)) ∧
    (s + l ≤ 0 → summaryTax cfg s l = none) ∧
    taxRates none = (22 / 100, 3935 / 10000) ∧
    (∀ r, taxRates (some r) = (r.long_term_gain, r.short_term_gain)) := by
  intro s l
  refine ⟨?_, ?_, ?_, ?_, rfl, fun r => rfl⟩
  · intro hs hl
    simp only [summaryTax]
    rw [if_pos (by linarith), if_pos ⟨hs, hl⟩]
  · intro hl hs hg
    simp only [summaryTax]
    rw [if_pos hg, if_neg (fun hc => absurd hc.1 (not_lt.mpr hs)), if_pos hl]
  · intro hl hg
    simp only [summaryTax]
    rw [if_pos hg, if_neg (fun hc => absurd hc.2 (not_lt.mpr hl)),
      if_neg (not_lt.mpr hl)]
  · intro hg
    simp only [summaryTax]
    rw [if_neg (not_lt.mpr hg)]

/-- Witness for C7: both buckets positive, so the blended formula with
the default rates applies. -/
theorem summary_tax_spec_witness :
    0 < (summaryGains exAcctC7 [1, 2] 30 400).1 ∧
    0 < (summaryGains exAcctC7 [1, 2] 30 400).2 ∧
    summaryTax none (summaryGains exAcctC7 [1, 2] 30 400).1
        (summaryGains exAcctC7 [1, 2] 30 400).2 =
      some ((summaryGains exAcctC7 [1, 2] 30 400).1 * (taxRates none).2 +
        (summaryGains exAcctC7 [1, 2] 30 400).2 * (taxRates none).1) :=
  ⟨by norm_num [summaryGains, exAcctC7, MaybeToken.ui_amount, MaybeToken.decimals],
   by norm_num [summaryGains, exAcctC7, MaybeToken.ui_amount, MaybeToken.decimals],
   (summary_tax_spec exAcctC7 [1, 2] 30 400 none).1
     (by norm_num [summaryGains, exAcctC7, MaybeToken.ui_amount, MaybeToken.decimals])
     (by norm_num [summaryGains, exAcctC7, MaybeToken.ui_amount, MaybeToken.decimals])⟩

/-- C4 counterexample: with lot 1 (amount 100) explicitly selected but
the UI amount field set to 5, do_withdraw uses 5 SOL in base units, not
the 100 base-unit sum of the selected lots. -/
theorem do_withdraw_amount_counterexample :
    doWithdrawAmount exAcctC4 [1] (some 5) = 5000000000 ∧
    selectedLotsSum exAcctC4 [1] = 100 ∧
    doWithdrawAmount exAcctC4 [1] (some 5) ≠ selectedLotsSum exAcctC4 [1] := by
  refine ⟨?_, by norm_num [selectedLotsSum, exAcctC4], ?_⟩ <;>
    norm_num [doWithdrawAmount, exAcctC4, MaybeToken.amount, MaybeToken.decimals,
      selectedLotsSum, Int.toNat_ofNat] <;> omega

/-- C4 amended: do_split always uses exactly the sum of the selected
lots, and do_withdraw uses that sum exactly when the amount field is
absent or not positive. -/
theorem explicit_lot_amount_spec (account : TrackedAccount)
    (selected : List Nat) (amountField : Option ℚ)
    (h : amountField.getD 0 ≤ 0) :
    doWithdrawAmount account selected amountField =
      selectedLotsSum account selected ∧
    doSplitAmount account selected = selectedLotsSum account selected := by
  constructor
  · simp only [doWithdrawAmount]
    rw [if_neg (not_lt.mpr h)]
  · rfl

/-- Witness for the amended C4: with the amount field absent the
withdraw amount is the selected-lot sum. -/
theorem explicit_lot_amount_spec_witness :
    (Option.getD (none : Option ℚ) 0 ≤ 0) ∧
    doWithdrawAmount exAcctC4 [1] none = selectedLotsSum exAcctC4 [1] ∧
    doSplitAmount exAcctC4 [1] = selectedLotsSum exAcctC4 [1] :=
  ⟨by decide, explicit_lot_amount_spec exAcctC4 [1] none (by decide)⟩

/-- Sum of lot amounts distributes over cons. -/
theorem lotsSum_cons (l : Lot) (rest : List Lot) :
    lotsSum (l :: rest) = l.amount + lotsSum rest := by
  simp [lotsSum]

/-- Greedy consumption of the exact live total consumes every lot and
leaves no residual, provided every live lot has a positive amount. -/
theorem consumeLots_total (lots : List Lot) (next : Nat)
    (hpos : ∀ l ∈ lots, 0 < l.amount) :
    consumeLots next lots (lotsSum lots) = some (lots, [], next) := by
  induction lots with
  | nil => simp [consumeLots, lotsSum]
  | cons l rest ih =>
    have hl : 0 < l.amount := hpos l (List.mem_cons_self l rest)
    have hrest : ∀ x ∈ rest, 0 < x.amount := fun x hx =>
      hpos x (List.mem_cons_of_mem l hx)
    rw [consumeLots, lotsSum_cons]
    rw [if_neg (by omega), if_pos (by omega)]
    have hsub : l.amount + lotsSum rest - l.amount = lotsSum rest := by omega
    rw [hsub, ih hrest]

/-- Every selection ordering is a permutation of the stored lots. -/
theorem orderLots_perm (m : LotSelectionMethod) (lots : List Lot) :
    (orderLots m lots).Perm lots := by
  cases m with
  | firstInFirstOut => exact List.Perm.refl _
  | lastInFirstOut => exact List.reverse_perm lots
  | highestCostFirst => exact List.perm_insertionSort _ lots

/-- Ordering the lots preserves their total live amount. -/
theorem lotsSum_orderLots (m : LotSelectionMethod) (lots : List Lot) :
    lotsSum (orderLots m lots) = lotsSum lots :=
  List.Perm.sum_eq ((orderLots_perm m lots).map Lot.amount)

/-- Ordering the lots preserves membership. -/
theorem mem_orderLots (m : LotSelectionMethod) (lots : List Lot) (l : Lot) :
    l ∈ orderLots m lots ↔ l ∈ lots :=
  (orderLots_perm m lots).mem_iff

/-- Replacing the account found at a key makes the replacement the
account found at that key. -/
theorem find?_map_replace (l : List TrackedAccount) (address : Nat)
    (token : MaybeToken) (acct acct2 : TrackedAccount)
    (hfind : l.find? (fun a => a.address == address && a.token == token) =
      some acct)
    (h2 : acct2.address = address) (h3 : acct2.token = token) :
    (l.map fun a =>
        if a.address == acct2.address && a.token == acct2.token then acct2
        else a).find?
      (fun a => a.address == address && a.token == token) = some acct2 := by
  induction l with
  | nil => simp at hfind
  | cons a rest ih =>
    by_cases hp : (a.address == address && a.token == token) = true
    · have hcond : (a.address == acct2.address && a.token == acct2.token) = true := by
        rw [h2, h3]
        exact hp
      simp only [List.map_cons, hcond, if_pos]
      have hpa2 : (acct2.address == address && acct2.token == token) = true := by
        simp [h2, h3]
      simp [List.find?_cons_of_pos, hpa2]
    · have hp2 : (a.address == address && a.token == token) = false := by
        simpa using hp
      have hcond : (a.address == acct2.address && a.token == acct2.token) = false := by
        rw [h2, h3]
        exact hp2
      simp only [List.find?_cons, hp2] at hfind
      rw [List.map_cons,
        show (if (a.address == acct2.address && a.token == acct2.token) = true
            then acct2 else a) = a from by rw [hcond]; simp]
      simp only [List.find?_cons, hp2]
      exact ih hfind

/-- After filtering a key out of the accounts, nothing is found at that
key. -/
theorem find?_filter_none (l : List TrackedAccount) (address : Nat)
    (token : MaybeToken) :
    (l.filter fun a => !(a.address == address && a.token == token)).find?
      (fun a => a.address == address && a.token == token) = none := by
  rw [List.find?_eq_none]
  intro x hx hpx
  rw [List.mem_filter] at hx
  rw [hpx] at hx
  simp at hx

/-- C10: process_stake_withdraw rejects the request with no ledger
mutation and no transaction activity whenever the source stake address
or the destination address is not a tracked SOL account; in particular
a withdrawal to an untracked destination fails before the transaction
is built or submitted. -/
theorem untracked_account_rejected (db : Db) (env : WithdrawEnv)
    (stake_address to_address : Nat) (amount : Option Nat)
    (m : LotSelectionMethod) (ln : Option (List Nat))
    (h : db.get_account stake_address .sol = none ∨
      db.get_account to_address .sol = none) :
    processStakeWithdraw db env stake_address to_address amount m ln =
      (.error, db, []) := by
  rcases env with ⟨bh, sim, sOk, sig, send, date⟩
  cases bh with
  | error e => rfl
  | ok p =>
    obtain ⟨bh1, bh2⟩ := p
    rcases h with h | h
    · simp [processStakeWithdraw, h]
    · cases hs : db.get_account stake_address .sol with
      | none => simp [processStakeWithdraw, hs]
      | some acct => simp [processStakeWithdraw, hs, h]

/-- Witness for C10: withdrawing to the untracked address 2 fails with
the ledger untouched and an empty trace. -/
theorem untracked_account_rejected_witness :
    exDbC3.get_account 2 .sol = none ∧
    processStakeWithdraw exDbC3 exEnvOk 1 2 (some 10) .firstInFirstOut none =
      (.error, exDbC3, []) :=
  ⟨rfl, untracked_account_rejected exDbC3 exEnvOk 1 2 (some 10)
    .firstInFirstOut none (Or.inr rfl)⟩

/-- C2: when the network simulation reports an execution error, both
process_stake_withdraw and process_stake_deactivate return an error
before signing and before any ledger mutation: the resulting ledger is
exactly the input ledger, the transaction is never signed and
record_transfer is never invoked. -/
theorem simulation_failure_aborts (db : Db) (env : WithdrawEnv)
    (stake_address to_address : Nat) (amount : Option Nat)
    (m : LotSelectionMethod) (ln : Option (List Nat)) (e : Nat)
    (hsim : env.simulate = .ok (some e)) :
    (processStakeWithdraw db env stake_address to_address amount m ln).1 =
      .error ∧
    (processStakeWithdraw db env stake_address to_address amount m ln).2.1 =
      db ∧
    Event.signed ∉
      (processStakeWithdraw db env stake_address to_address amount m ln).2.2 ∧
    (∀ s, Event.recordTransfer s ∉
      (processStakeWithdraw db env stake_address to_address amount m ln).2.2) ∧
    (processStakeDeactivate env).1 = .error := by
  rcases env with ⟨bh, sim, sOk, sig, send, date⟩
  simp only at hsim
  subst hsim
  cases bh with
  | error e2 => simp [processStakeWithdraw, processStakeDeactivate]
  | ok p =>
    obtain ⟨bh1, bh2⟩ := p
    cases hs : db.get_account stake_address .sol with
    | none => simp [processStakeWithdraw, processStakeDeactivate, hs]
    | some acct =>
      cases hto : db.get_account to_address .sol with
      | none => simp [processStakeWithdraw, processStakeDeactivate, hs, hto]
      | some t2 => simp [processStakeWithdraw, processStakeDeactivate, hs, hto]

/-- Witness for C2: a simulated execution error aborts the concrete
withdrawal with the ledger unchanged. -/
theorem simulation_failure_aborts_witness :
    ({ exEnvOk with simulate := .ok (some 1) } : WithdrawEnv).simulate =
      .ok (some 1) ∧
    (processStakeWithdraw exDbC3 { exEnvOk with simulate := .ok (some 1) }
      1 1 (some 10) .firstInFirstOut none).1 = .error ∧
    (processStakeWithdraw exDbC3 { exEnvOk with simulate := .ok (some 1) }
      1 1 (some 10) .firstInFirstOut none).2.1 = exDbC3 :=
  ⟨rfl,
   (simulation_failure_aborts exDbC3 { exEnvOk with simulate := .ok (some 1) }
     1 1 (some 10) .firstInFirstOut none 1 rfl).1,
   (simulation_failure_aborts exDbC3 { exEnvOk with simulate := .ok (some 1) }
     1 1 (some 10) .firstInFirstOut none 1 rfl).2.1⟩

/-- C1: whenever a run of process_stake_withdraw has signed and
recorded the transaction (submission happened) and the bounded
submission reports failure (send_transaction_until_expired is false or
errors, defaulted to false by unwrap_or_default), the engine cancels
the transfer under the same signature and returns an error; the trace
shows exactly one submission, so no retry with a stale blockhash ever
happens. -/
theorem send_failure_cancels (db : Db) (env : WithdrawEnv)
    (stake_address to_address : Nat) (amount : Option Nat)
    (m : LotSelectionMethod) (ln : Option (List Nat))
    (hsent : Event.sent env.signature ∈
      (processStakeWithdraw db env stake_address to_address amount m ln).2.2)
    (hsend : env.sendResult.toOption.getD false = false) :
    (processStakeWithdraw db env stake_address to_address amount m ln).1 =
      .error ∧
    (processStakeWithdraw db env stake_address to_address amount m ln).2.2 =
      [.built, .simulated, .signed, .recordTransfer env.signature,
        .sent env.signature, .cancelTransfer env.signature] := by
  rcases env with ⟨bh, sim, sOk, sig, send, date⟩
  simp only at hsent hsend ⊢
  cases bh with
  | error e => simp [processStakeWithdraw] at hsent
  | ok p =>
    obtain ⟨bh1, bh2⟩ := p
    cases hs : db.get_account stake_address .sol with
    | none => simp [processStakeWithdraw, hs] at hsent
    | some acct =>
      cases hto : db.get_account to_address .sol with
      | none => simp [processStakeWithdraw, hs, hto] at hsent
      | some t2 =>
        cases sim with
        | error e => simp [processStakeWithdraw, hs, hto] at hsent
        | ok sr =>
          cases sr with
          | some e => simp [processStakeWithdraw, hs, hto] at hsent
          | none =>
            cases sOk with
            | false => simp [processStakeWithdraw, hs, hto] at hsent
            | true =>
              cases amount with
              | none =>
                cases hrec : db.record_transfer sig bh2
                    (some acct.last_update_balance) stake_address .sol
                    to_address .sol m ln with
                | error e =>
                  simp [processStakeWithdraw, hs, hto, hrec] at hsent
                | ok db1 =>
                  cases hcan : db1.cancel_transfer sig with
                  | error e =>
                    simp [processStakeWithdraw, hs, hto, hrec, hsend, hcan]
                  | ok db2 =>
                    simp [processStakeWithdraw, hs, hto, hrec, hsend, hcan]
              | some a =>
                cases hrec : db.record_transfer sig bh2 (some a) stake_address
                    .sol to_address .sol m ln with
                | error e =>
                  simp [processStakeWithdraw, hs, hto, hrec] at hsent
                | ok db1 =>
                  cases hcan : db1.cancel_transfer sig with
                  | error e =>
                    simp [processStakeWithdraw, hs, hto, hrec, hsend, hcan]
                  | ok db2 =>
                    simp [processStakeWithdraw, hs, hto, hrec, hsend, hcan]

/-- Witness for C1: a concrete recorded withdrawal whose submission
fails is cancelled under the same signature and errors. -/
theorem send_failure_cancels_witness :
    Event.sent exEnvSendFail.signature ∈
      (processStakeWithdraw exDbC1 exEnvSendFail 1 2 (some 100)
        .firstInFirstOut (some [1])).2.2 ∧
    (processStakeWithdraw exDbC1 exEnvSendFail 1 2 (some 100) .firstInFirstOut
      (some [1])).1 = .error ∧
    (processStakeWithdraw exDbC1 exEnvSendFail 1 2 (some 100) .firstInFirstOut
      (some [1])).2.2 =
      [.built, .simulated, .signed, .recordTransfer exEnvSendFail.signature,
        .sent exEnvSendFail.signature, .cancelTransfer exEnvSendFail.signature] := by
  have h1 : Event.sent exEnvSendFail.signature ∈
      (processStakeWithdraw exDbC1 exEnvSendFail 1 2 (some 100)
        .firstInFirstOut (some [1])).2.2 := by decide
  have h2 := send_failure_cancels exDbC1 exEnvSendFail 1 2 (some 100)
    .firstInFirstOut (some [1]) h1 rfl
  exact ⟨h1, h2.1, h2.2⟩

/-- Recording a full-balance transfer with default selection succeeds
and leaves the source account with no live lots, provided the ledger
invariant holds (live lots sum to the recorded balance, all positive)
and the signature is fresh. -/
theorem record_transfer_all (db : Db) (sig bh2 to_address stake_address : Nat)
    (m : LotSelectionMethod) (acct : TrackedAccount)
    (hacct : db.get_account stake_address .sol = some acct)
    (hA : acct.address = stake_address) (hT : acct.token = .sol)
    (hdup : db.transfers.any (fun t => t.signature == sig) = false)
    (hbal : lotsSum acct.lots = acct.last_update_balance)
    (hpos : ∀ l ∈ acct.lots, 0 < l.amount) :
    db.record_transfer sig bh2 (some acct.last_update_balance) stake_address
      .sol to_address .sol m none =
    .ok (Db.mk
      (db.accounts.map fun a =>
        if a.address == stake_address && a.token == MaybeToken.sol then
          TrackedAccount.mk stake_address .sol [] 0
        else a)
      ({ signature := sig, ceiling := bh2, amount := acct.last_update_balance
         from_address := stake_address, to_address := to_address
         consumedLots := orderLots m acct.lots, prevLots := acct.lots
         prevBalance := acct.last_update_balance
         status := .pending } :: db.transfers)
      db.disposed db.next_lot) := by
  have hconsume : consumeLots db.next_lot (orderLots m acct.lots)
      acct.last_update_balance = some (orderLots m acct.lots, [], db.next_lot) := by
    rw [← hbal, ← lotsSum_orderLots m acct.lots]
    exact consumeLots_total _ _ fun l hl =>
      hpos l ((mem_orderLots m acct.lots l).1 hl)
  simp [Db.record_transfer, Db.update_account, hdup, hacct, hconsume, hA, hT]

/-- C5 counterexample: a full stake withdrawal (amount None) invoked
with an explicit lot-number subset reaches confirmation with a live lot
remaining, so the assertion that the live-lot set is empty fails: the
run panics (fatal) instead of removing the account. -/
theorem full_withdraw_assert_counterexample :
    Event.confirmTransfer 7 ∈
      (processStakeWithdraw exDbC5 exEnvOk 1 2 none .firstInFirstOut
        (some [1])).2.2 ∧
    (processStakeWithdraw exDbC5 exEnvOk 1 2 none .firstInFirstOut
      (some [1])).1 = .fatal := by
  decide

/-- get_account on an explicitly constructed ledger reads its accounts
field. -/
theorem get_account_mk (A : List TrackedAccount) (T : List PendingTransfer)
    (D : List DisposedLot) (N : Nat) (address : Nat) (token : MaybeToken) :
    (Db.mk A T D N).get_account address token =
      A.find? (fun a => a.address == address && a.token == token) := rfl

/-- C5 amended: a confirmed full stake withdrawal (amount None) that
uses the default selection (no explicit lot-number override) never
fails the empty-lot assertion whenever the ledger invariant holds (the
live lots of the source account sum to its recorded balance and are
positive); a successful run removes the source account from the
ledger.  An assertion failure is a Rust panic (the fatal outcome),
never silently swallowed. -/
theorem full_withdraw_empties_and_removes (db : Db) (env : WithdrawEnv)
    (stake_address to_address : Nat) (m : LotSelectionMethod)
    (acct : TrackedAccount)
    (hacct : db.get_account stake_address .sol = some acct)
    (hbal : lotsSum acct.lots = acct.last_update_balance)
    (hpos : ∀ l ∈ acct.lots, 0 < l.amount) :
    (processStakeWithdraw db env stake_address to_address none m none).1 ≠
      .fatal ∧
    ((processStakeWithdraw db env stake_address to_address none m none).1 =
        .ok →
      Event.removeAccount stake_address ∈
        (processStakeWithdraw db env stake_address to_address none m none).2.2 ∧
      (processStakeWithdraw db env stake_address to_address none m
        none).2.1.get_account stake_address .sol = none) := by
  have hacct2 : db.accounts.find?
      (fun a => a.address == stake_address && a.token == MaybeToken.sol) =
      some acct := hacct
  have hAT : acct.address = stake_address ∧ acct.token = MaybeToken.sol := by
    have h := List.find?_some hacct2
    simpa using h
  rcases env with ⟨bh, sim, sOk, sig, send, date⟩
  cases bh with
  | error e => simp [processStakeWithdraw]
  | ok p =>
    obtain ⟨bh1, bh2⟩ := p
    cases hto : db.get_account to_address .sol with
    | none => simp [processStakeWithdraw, hacct, hto]
    | some t2 =>
      cases sim with
      | error e => simp [processStakeWithdraw, hacct, hto]
      | ok sr =>
        cases sr with
        | some e => simp [processStakeWithdraw, hacct, hto]
        | none =>
          cases sOk with
          | false => simp [processStakeWithdraw, hacct, hto]
          | true =>
            cases hdup : db.transfers.any (fun t => t.signature == sig) with
            | true =>
              have hrec : db.record_transfer sig bh2
                  (some acct.last_update_balance) stake_address .sol to_address
                  .sol m none = .error "signature already recorded" := by
                simp [Db.record_transfer, hdup]
              simp [processStakeWithdraw, hacct, hto, hrec]
            | false =>
              have hrec := record_transfer_all db sig bh2 to_address
                stake_address m acct hacct hAT.1 hAT.2 hdup hbal hpos
              cases hsendb : send.toOption.getD false with
              | false =>
                cases hrec2 : db.record_transfer sig bh2
                    (some acct.last_update_balance) stake_address .sol
                    to_address .sol m none with
                | error e => simp [processStakeWithdraw, hacct, hto, hrec2]
                | ok db1 =>
                  cases hcan : db1.cancel_transfer sig with
                  | error e2 =>
                    simp [processStakeWithdraw, hacct, hto, hrec2, hsendb, hcan]
                  | ok db2 =>
                    simp [processStakeWithdraw, hacct, hto, hrec2, hsendb, hcan]
              | true =>
                cases date with
                | error e =>
                  cases hrec2 : db.record_transfer sig bh2
                      (some acct.last_update_balance) stake_address .sol
                      to_address .sol m none with
                  | error e2 => simp [processStakeWithdraw, hacct, hto, hrec2]
                  | ok db1 =>
                    simp [processStakeWithdraw, hacct, hto, hrec2, hsendb]
                | ok when =>
                  have hpf : List.find?
                      ((fun a => a.address == stake_address &&
                          a.token == MaybeToken.sol) ∘ fun a =>
                        if a.address = stake_address ∧ a.token = MaybeToken.sol
                        then TrackedAccount.mk stake_address .sol [] 0
                        else a) db.accounts = some acct := by
                    have hcomp : ((fun a => a.address == stake_address &&
                          a.token == MaybeToken.sol) ∘ fun a =>
                        if a.address = stake_address ∧ a.token = MaybeToken.sol
                        then TrackedAccount.mk stake_address .sol [] 0
                        else a) = (fun a => a.address == stake_address &&
                          a.token == MaybeToken.sol) := by
                      funext x
                      by_cases hx : x.address = stake_address ∧
                          x.token = MaybeToken.sol
                      · simp [Function.comp, hx, hx.1, hx.2]
                      · simp [Function.comp, hx]
                    rw [hcomp]
                    exact hacct2
                  simp [processStakeWithdraw, hacct, hto, hrec, hsendb,
                    Db.confirm_transfer, Db.remove_account, get_account_mk,
                    hpf, hAT.1, hAT.2, find?_filter_none]
                  intro x hx h hp
                  rcases h with h | h
                  · exact absurd hp h
                  · exact h

/-- Witness for the amended C5: on a concrete ledger satisfying the
invariant, the full withdrawal with default selection confirms, never
panics, and removes the source account. -/
theorem full_withdraw_empties_and_removes_witness :
    exDbC5.get_account 1 .sol = some exAcctC5 ∧
    lotsSum exAcctC5.lots = exAcctC5.last_update_balance ∧
    (processStakeWithdraw exDbC5 exEnvOk 1 2 none .firstInFirstOut none).1 ≠
      .fatal ∧
    (processStakeWithdraw exDbC5 exEnvOk 1 2 none .firstInFirstOut none).1 =
      .ok ∧
    Event.removeAccount 1 ∈
      (processStakeWithdraw exDbC5 exEnvOk 1 2 none .firstInFirstOut
        none).2.2 ∧
    (processStakeWithdraw exDbC5 exEnvOk 1 2 none .firstInFirstOut
      none).2.1.get_account 1 .sol = none := by
  have hok : (processStakeWithdraw exDbC5 exEnvOk 1 2 none .firstInFirstOut
      none).1 = .ok := by decide
  have h := full_withdraw_empties_and_removes exDbC5 exEnvOk 1 2
    .firstInFirstOut exAcctC5 rfl rfl (by decide)
  exact ⟨rfl, rfl, h.1, hok, (h.2 hok).1, (h.2 hok).2⟩

/-- C8: the non-SOL withdrawal path never records a Pending transfer
and never submits a tracked transaction: the ledger debit goes through
record_drop with the explicitly selected lot numbers exactly when the
token-transfer collaborator reports success, and a reported failure
returns with the ledger untouched. -/
theorem token_withdraw_record_drop (db : Db) (account : TrackedAccount)
    (authority_address : Nat) (amount : Nat) (lot_numbers : List Nat)
    (env : TokenTransferEnv) :
    (∀ p ∈ doWithdrawTokenPath db account authority_address amount
        lot_numbers env, ∀ s, Event.recordTransfer s ∉ p.2 ∧
        Event.sent s ∉ p.2) ∧
    (env.transferResult.isOk = false →
      doWithdrawTokenPath db account authority_address amount lot_numbers
        env = some (db, [])) ∧
    (env.transferResult.isOk = true →
      ∀ p ∈ doWithdrawTokenPath db account authority_address amount
        lot_numbers env,
        Event.recordDrop account.address lot_numbers ∈ p.2) := by
  rcases env with ⟨tres, fetch⟩
  cases tres with
  | error e =>
    refine ⟨?_, fun _ => rfl, fun hcontra => by simp [Except.isOk, Except.toBool] at hcontra⟩
    intro p hp s
    simp only [doWithdrawTokenPath, Option.mem_def, Option.some.injEq] at hp
    subst hp
    simp
  | ok u =>
    refine ⟨?_, fun hcontra => by simp [Except.isOk, Except.toBool] at hcontra, fun _ => ?_⟩ <;>
      simp only [doWithdrawTokenPath]
    · intro p hp s
      cases hadj : adjust_balance db authority_address fetch with
      | none => simp [hadj] at hp
      | some db1 =>
        simp only [hadj] at hp
        cases hdrop : db1.record_drop account.address account.token amount
            .lastInFirstOut (some lot_numbers) with
        | error e2 =>
          simp only [hdrop, Option.mem_def, Option.some.injEq] at hp
          subst hp
          simp
        | ok db2 =>
          simp only [hdrop, Option.mem_def, Option.some.injEq] at hp
          subst hp
          simp
    · intro p hp
      cases hadj : adjust_balance db authority_address fetch with
      | none => simp [hadj] at hp
      | some db1 =>
        simp only [hadj] at hp
        cases hdrop : db1.record_drop account.address account.token amount
            .lastInFirstOut (some lot_numbers) with
        | error e2 =>
          simp only [hdrop, Option.mem_def, Option.some.injEq] at hp
          subst hp
          simp
        | ok db2 =>
          simp only [hdrop, Option.mem_def, Option.some.injEq] at hp
          subst hp
          simp

/-- Witness for C8 at a concrete failing and a concrete succeeding
token transfer. -/
theorem token_withdraw_record_drop_witness :
    doWithdrawTokenPath exDbC8 exAcctC8 1 100 [1]
      { transferResult := .error (), adjustFetch := .ok 1000 } =
      some (exDbC8, []) ∧
    (∀ p ∈ doWithdrawTokenPath exDbC8 exAcctC8 1 100 [1]
        { transferResult := .ok (), adjustFetch := .ok 1000 },
      Event.recordDrop exAcctC8.address [1] ∈ p.2) := by
  constructor
  · exact (token_withdraw_record_drop exDbC8 exAcctC8 1 100 [1]
      { transferResult := .error (), adjustFetch := .ok 1000 }).2.1 rfl
  · exact (token_withdraw_record_drop exDbC8 exAcctC8 1 100 [1]
      { transferResult := .ok (), adjustFetch := .ok 1000 }).2.2 rfl

end SysUi
